import Mathlib

/-
Verification of the CryptoCoven subgraph mapping layer
(src/src/mappings/coven.ts) against its natural-language specification.

The mapping layer is embedded shallowly:
- graph-ts `BigInt` values become `Int`;
- `Address` and `Bytes` values become lowercase hex `String`s (an Account id is
  the address hex string, exactly as in the schema);
- the entity store becomes explicit association lists from id to entity, with
  `load` as first-match lookup and `save` as first-match replace-or-append;
- `log.info` calls become entries appended to a log list.

Two source files of the repository (utils/consts.ts and utils/helper.ts) are
not under src/; coven.ts only imports from them.  Definitions taken from the
spec instead of those files carry a doc comment starting
"Modelled from the spec:".  The getMarketplaceName helper and the Marketplace
enum variants are shown verbatim in src/README.md and are embedded from there.
-/

namespace CovenIndexing

/-- Marketplace enumeration used by coven.ts (variants listed in src/README.md
and fixed by the spec's closed tag set). -/
inductive Marketplace where
  | OpenSeaV1
  | OpenSeaV2
  | SeaPort
  | LooksRare
  | OxProtocol
  | OxProtocolV2
  | Blur
  | Rarible
  | X2Y2
  | NFTX
  | GenieSwap
  | CryptoCoven
  | Unknown
  deriving DecidableEq, Repr

/-- Addresses are modelled as lowercase hex strings; the schema uses the address
hex string as the Account id. -/
abbrev Addr := String

/-- Zero address sentinel (utils/consts is not under src; the spec names "a
well-known zero address sentinel"). -/
def ZERO_ADDRESS : Addr := "0x0000000000000000000000000000000000000000"

/-- Modelled from the spec: the marketplace address table (utils/consts.ts, not
under src) is "a fixed external constant mapping of marketplace tag -> one or
more known contract addresses"; each known address belongs to exactly one tag,
so the constants below are distinct placeholder values, one per tag. -/
def OPENSEAV1 : Addr := "0xaddropenseav1"

def OPENSEAV2 : Addr := "0xaddropenseav2"

def SEAPORT : Addr := "0xaddrseaport"

def LOOKS_RARE : Addr := "0xaddrlooksrare"

def OXPROTOCOL : Addr := "0xaddroxprotocol"

def OXPROTOCOLV2 : Addr := "0xaddroxprotocolv2"

def BLUR : Addr := "0xaddrblur"

def RARIBLE : Addr := "0xaddrrarible"

def X2Y2 : Addr := "0xaddrx2y2"

def NFTX : Addr := "0xaddrnftx"

def GENIE_SWAP : Addr := "0xaddrgenieswap"

def CRYPTO_COVEN : Addr := "0xaddrcryptocoven"

/-- Source: the getMarketplaceName helper shown in src/README.md (coven.ts calls
it via utils/helper): an if-else chain mapping each enum value to its display
string, with a final else returning "Unknown". -/
def getMarketplaceName (marketplace : Marketplace) : String :=
  if marketplace = Marketplace.OpenSeaV1 then "OpenSeaV1"
  else if marketplace = Marketplace.OpenSeaV2 then "OpenSeaV2"
  else if marketplace = Marketplace.SeaPort then "SeaPort"
  else if marketplace = Marketplace.LooksRare then "LooksRare"
  else if marketplace = Marketplace.OxProtocol then "OxProtocol"
  else if marketplace = Marketplace.OxProtocolV2 then "OxProtocolV2"
  else if marketplace = Marketplace.Blur then "Blur"
  else if marketplace = Marketplace.Rarible then "Rarible"
  else if marketplace = Marketplace.X2Y2 then "X2Y2"
  else if marketplace = Marketplace.NFTX then "NFTX"
  else if marketplace = Marketplace.GenieSwap then "GenieSwap"
  else if marketplace = Marketplace.CryptoCoven then "CryptoCoven"
  else "Unknown"

/-- Modelled from the spec: coven.ts builds interaction ids with
marketplace.toString(); the enum definition itself is in utils/helper (not under
src), and the spec fixes the rendering through its Scenario B key
"accountId-OpenSeaV1", so toString renders the tag name (Unknown included). -/
def marketplaceToString : Marketplace → String
  | .OpenSeaV1 => "OpenSeaV1"
  | .OpenSeaV2 => "OpenSeaV2"
  | .SeaPort => "SeaPort"
  | .LooksRare => "LooksRare"
  | .OxProtocol => "OxProtocol"
  | .OxProtocolV2 => "OxProtocolV2"
  | .Blur => "Blur"
  | .Rarible => "Rarible"
  | .X2Y2 => "X2Y2"
  | .NFTX => "NFTX"
  | .GenieSwap => "GenieSwap"
  | .CryptoCoven => "CryptoCoven"
  | .Unknown => "Unknown"

/-- Account entity (schema in src/README.md): BigInt counters become Int, the
txHash Bytes value becomes a hex string. -/
structure Account where
  id : String
  totalSpent : Int
  sendCount : Int
  receiveCount : Int
  nftCount : Int
  uniqueMarketplacesCount : Int
  txHash : String
  deriving DecidableEq, Repr

/-- CovenTransfer entity (schema in src/README.md); the marketplace tag is
stored as its string label, as coven.ts does via getMarketplaceName. -/
structure CovenTransfer where
  id : String
  «from» : String
  «to» : String
  tokenId : Int
  marketplace : String
  value : Int
  logIndex : Int
  txHash : String
  deriving DecidableEq, Repr

/-- MarketplaceInteraction entity (schema in src/README.md). -/
structure MarketplaceInteraction where
  id : String
  account : String
  marketplace : String
  transactionCount : Int
  deriving DecidableEq, Repr

/-- Diagnostic log entries emitted by coven.ts through log.info, each carrying
the transaction hash; the constructors name the four literal messages of the
handler (lines 152, 154, 156 and 226-229). -/
inductive LogEntry where
  | unknownMarketplace (txHash : String)
  | burnDetected (txHash : String)
  | unusualActivity (txHash : String)
  | skipZeroAddressTracking (txHash : String)
  deriving DecidableEq, Repr

/-- Inbound transfer event: the event's NFT-transfer parameters
(event.params.from / event.params.to / event.params.tokenId), the enclosing
transaction (event.transaction.hash / value / to / from, the last two nullable)
and the log index.  Bytes hashes are modelled as hex strings, so
hash.toHex() is the identity in the model. -/
structure TransferEvent where
  paramsFrom : Addr
  paramsTo : Addr
  tokenId : Int
  logIndex : Int
  txHash : String
  txValue : Int
  txTo : Option Addr
  txFrom : Option Addr
  deriving DecidableEq, Repr

/-- Entity store: one association list per entity type, plus the diagnostic log
stream.  load(id) is first-match lookup, save(entity) replaces the first entry
with the entity's id or appends. -/
structure Store where
  accounts : List (String × Account)
  interactions : List (String × MarketplaceInteraction)
  transfers : List (String × CovenTransfer)
  logs : List LogEntry
  deriving DecidableEq, Repr

/-- Store load: first entry with the given id. -/
def assocFind {β : Type} (k : String) : List (String × β) → Option β
  | [] => none
  | (k2, v) :: rest => if k2 = k then some v else assocFind k rest

/-- Store save: replace the first entry with the given id, or append. -/
def assocUpsert {β : Type} (k : String) (v : β) : List (String × β) → List (String × β)
  | [] => [(k, v)]
  | (k2, v2) :: rest => if k2 = k then (k, v) :: rest else (k2, v2) :: assocUpsert k v rest

/-- The empty store, the state before any event is processed. -/
def emptyStore : Store := { accounts := [], interactions := [], transfers := [], logs := [] }

/-- AssemblyScript truthiness of a BigInt entity field: BigInt is a reference
type, so a condition like `fromAccount.sendCount ? ... : ...` in coven.ts tests
the reference against null, not the value against zero.  The schema declares
those fields non-nullable and getOrCreateAccount initializes them, so the
reference is never null and the test is always true (this is why, as the spec
records, nftCount can go negative and is never floor-clamped). -/
def bigIntTruthy (_x : Int) : Bool := true

/-- Rendering of BigInt.toHex(): 0x-prefixed base-16 digits (used only to build
the Transfer id from the log index). -/
def bigIntToHex (n : Int) : String := "0x" ++ String.mk (Nat.toDigits 16 n.toNat)

/-- Modelled from the spec: getOrCreateAccount (utils/helper, not under src)
resolves the Account for an address or creates it; Accounts are "created on
first appearance", all schema counters are non-nullable BigInt and the handler
reads uniqueMarketplacesCount without a null guard, so creation zero-initializes
every counter. -/
def getOrCreateAccount (addr : Addr) (accounts : List (String × Account)) : Account :=
  match assocFind addr accounts with
  | some account => account
  | none =>
      { id := addr, totalSpent := 0, sendCount := 0, receiveCount := 0,
        nftCount := 0, uniqueMarketplacesCount := 0, txHash := "" }

/-- Source condition of coven.ts lines 78-81 and 164-167: neither NFT-transfer
endpoint is the zero address (not a mint or burn). -/
abbrev notZeroEnds (e : TransferEvent) : Prop :=
  e.paramsFrom ≠ ZERO_ADDRESS ∧ e.paramsTo ≠ ZERO_ADDRESS

/-- Source: coven.ts lines 117-148, the inline marketplace classifier of
handleTransfer.  sender is the transaction to address, receiver the transaction
from address; the default is Unknown, and the comparison chain runs only when
both are non-null. -/
def covenClassify (sender receiver : Option Addr) : Marketplace :=
  match sender, receiver with
  | some s, some r =>
      if s = OPENSEAV1 ∨ r = OPENSEAV1 then Marketplace.OpenSeaV1
      else if s = OPENSEAV2 ∨ r = OPENSEAV2 then Marketplace.OpenSeaV2
      else if s = SEAPORT ∨ r = SEAPORT then Marketplace.SeaPort
      else if s = LOOKS_RARE ∨ r = LOOKS_RARE then Marketplace.LooksRare
      else if s = OXPROTOCOL ∨ r = OXPROTOCOL then Marketplace.OxProtocol
      else if s = OXPROTOCOLV2 ∨ r = OXPROTOCOLV2 then Marketplace.OxProtocolV2
      else if s = BLUR ∨ r = BLUR then Marketplace.Blur
      else if s = RARIBLE ∨ r = RARIBLE then Marketplace.Rarible
      else if s = X2Y2 ∨ r = X2Y2 then Marketplace.X2Y2
      else if s = NFTX ∨ r = NFTX then Marketplace.NFTX
      else if s = GENIE_SWAP ∨ r = GENIE_SWAP then Marketplace.GenieSwap
      else if s = CRYPTO_COVEN ∨ r = CRYPTO_COVEN then Marketplace.CryptoCoven
      else Marketplace.Unknown
  | _, _ => Marketplace.Unknown

/-- The spec's ordered (tag, knownAddress) priority list, in the order the spec
and the source chain list the marketplaces. -/
def marketplacePriorityList : List (Marketplace × Addr) :=
  [(Marketplace.OpenSeaV1, OPENSEAV1), (Marketplace.OpenSeaV2, OPENSEAV2),
   (Marketplace.SeaPort, SEAPORT), (Marketplace.LooksRare, LOOKS_RARE),
   (Marketplace.OxProtocol, OXPROTOCOL), (Marketplace.OxProtocolV2, OXPROTOCOLV2),
   (Marketplace.Blur, BLUR), (Marketplace.Rarible, RARIBLE),
   (Marketplace.X2Y2, X2Y2), (Marketplace.NFTX, NFTX),
   (Marketplace.GenieSwap, GENIE_SWAP), (Marketplace.CryptoCoven, CRYPTO_COVEN)]

/-- First tag whose known address equals candidate A or candidate B, the spec's
words for the classifier algorithm ("iterate a fixed, ordered list of
(tag, knownAddress) pairs; for each, test equality of knownAddress against
candidate A or candidate B; return the first tag matched"). -/
def firstMatch (candA candB : Addr) : List (Marketplace × Addr) → Marketplace
  | [] => Marketplace.Unknown
  | (tag, known) :: rest =>
      if candA = known ∨ candB = known then tag else firstMatch candA candB rest

/-- Spec-side classifier, written from the spec's words for comparison with the
source-side covenClassify: run firstMatch over the priority list; if candidate A
or candidate B is absent, return Unknown. -/
def classifySpecModel (candA candB : Option Addr) : Marketplace :=
  match candA, candB with
  | some a, some b => firstMatch a b marketplacePriorityList
  | _, _ => Marketplace.Unknown

/-- The closed tag set of the spec. -/
def allMarketplaceTags : List Marketplace :=
  [Marketplace.OpenSeaV1, Marketplace.OpenSeaV2, Marketplace.SeaPort,
   Marketplace.LooksRare, Marketplace.OxProtocol, Marketplace.OxProtocolV2,
   Marketplace.Blur, Marketplace.Rarible, Marketplace.X2Y2, Marketplace.NFTX,
   Marketplace.GenieSwap, Marketplace.CryptoCoven, Marketplace.Unknown]

/-- Source: coven.ts lines 42-91, the mutations applied to the in-memory from
account copy: load or create (line 42), stamp txHash (line 47), bump sendCount
(lines 54-56), and, when neither endpoint is the zero address, decrement
nftCount (lines 83-85; the else branch of the source ternary would reset to
zero, but a non-null BigInt reference is always truthy, see bigIntTruthy). -/
def fromAccountUpdated (e : TransferEvent) (s : Store) : Account :=
  let acc := getOrCreateAccount e.paramsFrom s.accounts
  let acc := { acc with txHash := e.txHash }
  let acc := { acc with sendCount := if bigIntTruthy acc.sendCount then acc.sendCount + 1 else 1 }
  if notZeroEnds e then
    { acc with nftCount := if bigIntTruthy acc.nftCount then acc.nftCount - 1 else 0 }
  else acc

/-- Source: coven.ts lines 43-91, the mutations applied to the in-memory to
account copy: load or create (line 43), stamp txHash (line 46), bump
receiveCount (lines 63-65), add the transaction value to totalSpent (lines
73-75), and, when neither endpoint is the zero address, increment nftCount
(lines 88-90). -/
def toAccountUpdated (e : TransferEvent) (s : Store) : Account :=
  let acc := getOrCreateAccount e.paramsTo s.accounts
  let acc := { acc with txHash := e.txHash }
  let acc := { acc with receiveCount := if bigIntTruthy acc.receiveCount then acc.receiveCount + 1 else 1 }
  let acc := { acc with totalSpent := if bigIntTruthy acc.totalSpent then acc.totalSpent + e.txValue else e.txValue }
  if notZeroEnds e then
    { acc with nftCount := if bigIntTruthy acc.nftCount then acc.nftCount + 1 else 1 }
  else acc

/-- Source: coven.ts lines 168-216.  The marketplace interaction block is
written out twice in the source with identical logic, once for the from account
(lines 168-191) and once for the to account (lines 193-216): build the id
accountId + "-" + marketplace.toString(), load it; on a miss create the record
with transactionCount 1 and bump the account copy's uniqueMarketplacesCount; on
a hit increment transactionCount; then save the record. -/
def trackInteraction (account : Account) (marketplace : Marketplace)
    (interactions : List (String × MarketplaceInteraction)) :
    Account × List (String × MarketplaceInteraction) :=
  let interactionId := account.id ++ "-" ++ marketplaceToString marketplace
  match assocFind interactionId interactions with
  | none =>
      let interaction : MarketplaceInteraction :=
        { id := interactionId, account := account.id,
          marketplace := getMarketplaceName marketplace, transactionCount := 1 }
      ({ account with uniqueMarketplacesCount := account.uniqueMarketplacesCount + 1 },
       assocUpsert interactionId interaction interactions)
  | some interaction =>
      (account,
       assocUpsert interactionId
         { interaction with transactionCount := interaction.transactionCount + 1 } interactions)

/-- AssemblyScript identity comparison of coven.ts line 153,
sender === ZERO_ADDRESS: unlike the .equals calls of the classifier chain
above it, === compares object references, not values; event.transaction.to is
a freshly deserialized Address object and never the consts-module ZERO_ADDRESS
object, so the comparison is always false whatever the sender holds. -/
def identityEqZeroAddress (_sender : Option Addr) : Bool := false

/-- Source: coven.ts lines 150-157, the diagnostic if/else-if chain: log Unknown
marketplace, else log a burn when sender === ZERO_ADDRESS (a reference-identity
test, see identityEqZeroAddress), else log unusual activity when either
transaction address is null. -/
def diagEntries (e : TransferEvent) : List LogEntry :=
  let marketplace := covenClassify e.txTo e.txFrom
  if marketplace = Marketplace.Unknown then [LogEntry.unknownMarketplace e.txHash]
  else if identityEqZeroAddress e.txTo then [LogEntry.burnDetected e.txHash]
  else if e.txTo = none ∨ e.txFrom = none then [LogEntry.unusualActivity e.txHash]
  else []

/-- Source: coven.ts lines 100-110 and 159-161, the Transfer entity keyed
txHash-logIndex with from/to set to the account copies' ids, plus tokenId,
logIndex, txHash, value, and the marketplace display string. -/
def transferRecord (e : TransferEvent) (s : Store) : CovenTransfer :=
  { id := e.txHash ++ "-" ++ bigIntToHex e.logIndex,
    «from» := (fromAccountUpdated e s).id,
    «to» := (toAccountUpdated e s).id,
    tokenId := e.tokenId,
    marketplace := getMarketplaceName (covenClassify e.txTo e.txFrom),
    value := e.txValue,
    logIndex := e.logIndex,
    txHash := e.txHash }

/-- Source: coven.ts lines 40-230, handleTransfer.  The account copies are
mutated and saved (lines 93-94: from first, then to, captured by the nested
upserts of accounts1); the diagnostic chain runs unconditionally; when neither
endpoint is the zero address the two interaction blocks run in order against
the evolving interaction store, the account copies are re-saved (lines 219-220,
again from first then to) and the Transfer is saved (line 223); otherwise the
skip log is appended and the Transfer is never saved. -/
def handleTransfer (e : TransferEvent) (s : Store) : Store :=
  let fromAccount := fromAccountUpdated e s
  let toAccount := toAccountUpdated e s
  let accounts1 := assocUpsert toAccount.id toAccount (assocUpsert fromAccount.id fromAccount s.accounts)
  let marketplace := covenClassify e.txTo e.txFrom
  let logs1 := s.logs ++ diagEntries e
  if notZeroEnds e then
    let r1 := trackInteraction fromAccount marketplace s.interactions
    let r2 := trackInteraction toAccount marketplace r1.2
    let accounts2 := assocUpsert r2.1.id r2.1 (assocUpsert r1.1.id r1.1 accounts1)
    { accounts := accounts2, interactions := r2.2,
      transfers := assocUpsert (transferRecord e s).id (transferRecord e s) s.transfers,
      logs := logs1 }
  else
    { accounts := accounts1, interactions := s.interactions, transfers := s.transfers,
      logs := logs1 ++ [LogEntry.skipZeroAddressTracking e.txHash] }

/-- Process a sequence of events in order, starting from the empty store. -/
def processEvents (events : List TransferEvent) : Store :=
  events.foldl (fun s e => handleTransfer e s) emptyStore

/-- Stored account for an id, a fresh zero-initialized account when absent
(the same read coven.ts performs through getOrCreateAccount). -/
def storedAccount (s : Store) (a : String) : Account := getOrCreateAccount a s.accounts

/-- Stored uniqueMarketplacesCount of an account id (0 when absent). -/
def uniqCountOf (s : Store) (a : String) : Int := (storedAccount s a).uniqueMarketplacesCount

/-- Stored nftCount of an account id (0 when absent). -/
def nftCountOf (s : Store) (a : String) : Int := (storedAccount s a).nftCount

/-- Stored sendCount of an account id (0 when absent). -/
def sendCountOf (s : Store) (a : String) : Int := (storedAccount s a).sendCount

/-- Stored receiveCount of an account id (0 when absent). -/
def receiveCountOf (s : Store) (a : String) : Int := (storedAccount s a).receiveCount

/-- Stored totalSpent of an account id (0 when absent). -/
def totalSpentOf (s : Store) (a : String) : Int := (storedAccount s a).totalSpent

/-- Number of MarketplaceInteraction records whose account reference is the
given account id. -/
def countAccount (a : String) (l : List (String × MarketplaceInteraction)) : Nat :=
  l.countP (fun kv => kv.2.account == a)

/-- Every stored account sits under its own id as key; true of every store the
handler can produce, since saves are keyed by the entity id. -/
def AccountsWellKeyed (l : List (String × Account)) : Prop :=
  ∀ k acc, assocFind k l = some acc → acc.id = k

/-- Induction invariant for the uniqueMarketplacesCount bookkeeping. -/
def StoreInv (s : Store) : Prop :=
  AccountsWellKeyed s.accounts ∧
  ∀ a, uniqCountOf s a = (countAccount a s.interactions : Int)

/-- Events whose NFT-transfer endpoints coincide only in the degenerate
zero-address case; a non-zero self-transfer loads the same account twice and the
second save overwrites the first (the behavior of claim C10). -/
abbrev noSelfTrade (e : TransferEvent) : Prop :=
  e.paramsFrom ≠ e.paramsTo ∨ e.paramsFrom = ZERO_ADDRESS

/-- Concrete trade event: 0xaaa sends token 42 to 0xbbb through OpenSeaV1 (the
transaction to address is the OpenSeaV1 contract). -/
def evTradeAB : TransferEvent :=
  { paramsFrom := "0xaaa", paramsTo := "0xbbb", tokenId := 42, logIndex := 1,
    txHash := "0xhash1", txValue := 7, txTo := some OPENSEAV1, txFrom := some "0xaaa" }

/-- Concrete second trade event between the same accounts and marketplace. -/
def evTradeAB2 : TransferEvent :=
  { paramsFrom := "0xaaa", paramsTo := "0xbbb", tokenId := 43, logIndex := 2,
    txHash := "0xhash2", txValue := 9, txTo := some OPENSEAV1, txFrom := some "0xaaa" }

/-- Concrete self-transfer event: 0xaaa sends token 5 to itself through
OpenSeaV1. -/
def evSelfAA : TransferEvent :=
  { paramsFrom := "0xaaa", paramsTo := "0xaaa", tokenId := 5, logIndex := 3,
    txHash := "0xhash3", txValue := 4, txTo := some OPENSEAV1, txFrom := some "0xaaa" }

/-- Concrete mint event: the zero address sends token 9 to 0xaaa. -/
def evMint : TransferEvent :=
  { paramsFrom := ZERO_ADDRESS, paramsTo := "0xaaa", tokenId := 9, logIndex := 4,
    txHash := "0xhash4", txValue := 3, txTo := some "0xaaa", txFrom := some "0xccc" }

/-- Concrete degenerate event whose NFT-transfer endpoints are both the zero
address. -/
def evZeroZero : TransferEvent :=
  { paramsFrom := ZERO_ADDRESS, paramsTo := ZERO_ADDRESS, tokenId := 10, logIndex := 5,
    txHash := "0xhash5", txValue := 2, txTo := some "0xaaa", txFrom := some "0xccc" }

/-- Concrete event with an absent transaction to address. -/
def evNoTxTo : TransferEvent :=
  { paramsFrom := "0xaaa", paramsTo := "0xbbb", tokenId := 11, logIndex := 6,
    txHash := "0xhash6", txValue := 1, txTo := none, txFrom := some "0xaaa" }

/-- Concrete event whose transaction to address holds the zero address while
the transaction from address matches the OpenSeaV1 contract, so the classified
tag is not Unknown. -/
def evBurnTx : TransferEvent :=
  { paramsFrom := "0xaaa", paramsTo := "0xbbb", tokenId := 12, logIndex := 7,
    txHash := "0xhash7", txValue := 1, txTo := some ZERO_ADDRESS, txFrom := some OPENSEAV1 }

/-- Result of the from-account interaction block (coven.ts lines 168-191) inside
a trade-path handleTransfer call. -/
def tradeFromResult (e : TransferEvent) (s : Store) :
    Account × List (String × MarketplaceInteraction) :=
  trackInteraction (fromAccountUpdated e s) (covenClassify e.txTo e.txFrom) s.interactions

/-- Result of the to-account interaction block (coven.ts lines 193-216), run
against the interaction store left by the from-account block. -/
def tradeToResult (e : TransferEvent) (s : Store) :
    Account × List (String × MarketplaceInteraction) :=
  trackInteraction (toAccountUpdated e s) (covenClassify e.txTo e.txFrom) (tradeFromResult e s).2

/- ------------------------------------------------------------------ -/
/- Theorems: store primitives.                                         -/
/- ------------------------------------------------------------------ -/

theorem assocFind_assocUpsert {β : Type} (k k2 : String) (v : β) (l : List (String × β)) :
    assocFind k2 (assocUpsert k v l) = if k = k2 then some v else assocFind k2 l := by
  induction l with
  | nil => simp [assocFind, assocUpsert]
  | cons hd tl ih =>
      obtain ⟨a, b⟩ := hd
      by_cases h1 : a = k
      · subst h1
        by_cases h2 : a = k2 <;> simp [assocFind, assocUpsert, h2]
      · by_cases h2 : a = k2
        · subst h2
          have hne : k ≠ a := fun h3 => h1 h3.symm
          simp [assocFind, assocUpsert, h1, hne]
        · simp [assocFind, assocUpsert, h1, h2, ih]

theorem countAccount_nil (a : String) : countAccount a [] = 0 := rfl

theorem countAccount_upsert_absent (a k : String) (v : MarketplaceInteraction)
    (l : List (String × MarketplaceInteraction)) (h : assocFind k l = none) :
    countAccount a (assocUpsert k v l) =
      countAccount a l + (if v.account = a then 1 else 0) := by
  induction l with
  | nil =>
      by_cases hv : v.account = a <;>
        simp [countAccount, assocUpsert, List.countP_cons, hv]
  | cons hd tl ih =>
      obtain ⟨a2, b⟩ := hd
      simp only [assocFind] at h
      by_cases h2 : a2 = k
      · simp [h2] at h
      · simp only [if_neg h2] at h
        simp only [assocUpsert, if_neg h2, countAccount, List.countP_cons]
        have := ih h
        simp only [countAccount] at this
        omega

theorem countAccount_upsert_present (a k : String) (v w : MarketplaceInteraction)
    (l : List (String × MarketplaceInteraction))
    (hfind : assocFind k l = some w) (hacc : v.account = w.account) :
    countAccount a (assocUpsert k v l) = countAccount a l := by
  induction l with
  | nil => simp [assocFind] at hfind
  | cons hd tl ih =>
      obtain ⟨a2, b⟩ := hd
      simp only [assocFind] at hfind
      by_cases h2 : a2 = k
      · rw [if_pos h2] at hfind
        have hbw : b = w := by injection hfind
        simp only [assocUpsert, if_pos h2]
        have hba : (v.account == a) = (b.account == a) := by rw [hacc, hbw]
        simp [countAccount, List.countP_cons, hba]
      · simp only [if_neg h2] at hfind
        simp only [assocUpsert, if_neg h2, countAccount, List.countP_cons]
        have := ih hfind
        simp only [countAccount] at this
        omega

theorem accountsWellKeyed_nil : AccountsWellKeyed [] := by
  intro k acc h
  simp [assocFind] at h

theorem accountsWellKeyed_upsert (l : List (String × Account))
    (h : AccountsWellKeyed l) (acc : Account) :
    AccountsWellKeyed (assocUpsert acc.id acc l) := by
  intro k b hf
  rw [assocFind_assocUpsert] at hf
  by_cases hk : acc.id = k
  · rw [if_pos hk] at hf
    obtain rfl : acc = b := by injection hf
    exact hk
  · rw [if_neg hk] at hf
    exact h k b hf

/-- Appending the tag suffix to distinct account ids gives distinct keys. -/
theorem interactionKey_ne (a b t : String) (h : a ≠ b) :
    a ++ "-" ++ t ≠ b ++ "-" ++ t := by
  intro heq
  apply h
  have h1 : (a ++ "-" ++ t).data = (b ++ "-" ++ t).data := congrArg String.data heq
  simp only [String.data_append] at h1
  have h2 := List.append_cancel_right (List.append_cancel_right h1)
  cases a
  cases b
  exact congrArg String.mk (by simpa using h2)

/-- An absent candidate address forces the Unknown tag: the comparison chain of
coven.ts lines 121-148 runs only when both transaction addresses are present. -/
theorem covenClassify_absent (sender receiver : Option Addr)
    (h : sender = none ∨ receiver = none) :
    covenClassify sender receiver = Marketplace.Unknown := by
  rcases h with h | h
  · rw [h]
    cases receiver <;> rfl
  · rw [h]
    cases sender <;> rfl

/- ------------------------------------------------------------------ -/
/- Theorems: the interaction block.                                    -/
/- ------------------------------------------------------------------ -/

theorem trackInteraction_fst (acc : Account) (m : Marketplace)
    (ints : List (String × MarketplaceInteraction)) :
    (trackInteraction acc m ints).1 =
      { acc with uniqueMarketplacesCount := acc.uniqueMarketplacesCount +
          (if assocFind (acc.id ++ "-" ++ marketplaceToString m) ints = none then 1 else 0) } := by
  unfold trackInteraction
  cases h : assocFind (acc.id ++ "-" ++ marketplaceToString m) ints <;> simp [h]

theorem trackInteraction_snd_count (acc : Account) (m : Marketplace)
    (ints : List (String × MarketplaceInteraction)) (a : String) :
    countAccount a (trackInteraction acc m ints).2 =
      countAccount a ints +
        (if assocFind (acc.id ++ "-" ++ marketplaceToString m) ints = none ∧ acc.id = a
         then 1 else 0) := by
  unfold trackInteraction
  cases h : assocFind (acc.id ++ "-" ++ marketplaceToString m) ints with
  | none =>
      simp only [h]
      rw [countAccount_upsert_absent a _ _ ints h]
      by_cases ha : acc.id = a <;> simp [ha]
  | some rec =>
      simp only [h]
      rw [countAccount_upsert_present a (acc.id ++ "-" ++ marketplaceToString m)
            { rec with transactionCount := rec.transactionCount + 1 } rec ints h rfl]
      simp

theorem trackInteraction_snd_find_ne (acc : Account) (m : Marketplace)
    (ints : List (String × MarketplaceInteraction)) (k : String)
    (h : k ≠ acc.id ++ "-" ++ marketplaceToString m) :
    assocFind k (trackInteraction acc m ints).2 = assocFind k ints := by
  have hne : acc.id ++ "-" ++ marketplaceToString m ≠ k := fun h3 => h h3.symm
  unfold trackInteraction
  cases h2 : assocFind (acc.id ++ "-" ++ marketplaceToString m) ints <;>
    simp [h2, assocFind_assocUpsert, hne]

theorem trackInteraction_snd_find_self_absent (acc : Account) (m : Marketplace)
    (ints : List (String × MarketplaceInteraction))
    (h : assocFind (acc.id ++ "-" ++ marketplaceToString m) ints = none) :
    assocFind (acc.id ++ "-" ++ marketplaceToString m) (trackInteraction acc m ints).2 =
      some { id := acc.id ++ "-" ++ marketplaceToString m, account := acc.id,
             marketplace := getMarketplaceName m, transactionCount := 1 } := by
  unfold trackInteraction
  simp [h, assocFind_assocUpsert]

theorem trackInteraction_snd_find_self_present (acc : Account) (m : Marketplace)
    (ints : List (String × MarketplaceInteraction)) (rec : MarketplaceInteraction)
    (h : assocFind (acc.id ++ "-" ++ marketplaceToString m) ints = some rec) :
    assocFind (acc.id ++ "-" ++ marketplaceToString m) (trackInteraction acc m ints).2 =
      some { rec with transactionCount := rec.transactionCount + 1 } := by
  unfold trackInteraction
  simp [h, assocFind_assocUpsert]

/- ------------------------------------------------------------------ -/
/- Theorems: the account copies.                                       -/
/- ------------------------------------------------------------------ -/

theorem getOrCreateAccount_id (addr : Addr) (l : List (String × Account))
    (h : AccountsWellKeyed l) : (getOrCreateAccount addr l).id = addr := by
  unfold getOrCreateAccount
  cases h2 : assocFind addr l with
  | none => rfl
  | some acc => exact h addr acc h2

theorem fromAccountUpdated_id (e : TransferEvent) (s : Store)
    (h : AccountsWellKeyed s.accounts) : (fromAccountUpdated e s).id = e.paramsFrom := by
  unfold fromAccountUpdated
  split <;> exact getOrCreateAccount_id e.paramsFrom s.accounts h

theorem toAccountUpdated_id (e : TransferEvent) (s : Store)
    (h : AccountsWellKeyed s.accounts) : (toAccountUpdated e s).id = e.paramsTo := by
  unfold toAccountUpdated
  split <;> exact getOrCreateAccount_id e.paramsTo s.accounts h

theorem fromAccountUpdated_uniq (e : TransferEvent) (s : Store) :
    (fromAccountUpdated e s).uniqueMarketplacesCount = uniqCountOf s e.paramsFrom := by
  unfold fromAccountUpdated
  split <;> rfl

theorem toAccountUpdated_uniq (e : TransferEvent) (s : Store) :
    (toAccountUpdated e s).uniqueMarketplacesCount = uniqCountOf s e.paramsTo := by
  unfold toAccountUpdated
  split <;> rfl

theorem fromAccountUpdated_sendCount (e : TransferEvent) (s : Store) :
    (fromAccountUpdated e s).sendCount = sendCountOf s e.paramsFrom + 1 := by
  unfold fromAccountUpdated
  split <;> rfl

theorem toAccountUpdated_receiveCount (e : TransferEvent) (s : Store) :
    (toAccountUpdated e s).receiveCount = receiveCountOf s e.paramsTo + 1 := by
  unfold toAccountUpdated
  split <;> rfl

theorem toAccountUpdated_totalSpent (e : TransferEvent) (s : Store) :
    (toAccountUpdated e s).totalSpent = totalSpentOf s e.paramsTo + e.txValue := by
  unfold toAccountUpdated
  split <;> rfl

theorem fromAccountUpdated_nft_trade (e : TransferEvent) (s : Store) (h : notZeroEnds e) :
    (fromAccountUpdated e s).nftCount = nftCountOf s e.paramsFrom - 1 := by
  unfold fromAccountUpdated
  rw [if_pos h]
  rfl

theorem toAccountUpdated_nft_trade (e : TransferEvent) (s : Store) (h : notZeroEnds e) :
    (toAccountUpdated e s).nftCount = nftCountOf s e.paramsTo + 1 := by
  unfold toAccountUpdated
  rw [if_pos h]
  rfl

theorem fromAccountUpdated_nft_zero (e : TransferEvent) (s : Store) (h : ¬ notZeroEnds e) :
    (fromAccountUpdated e s).nftCount = nftCountOf s e.paramsFrom := by
  unfold fromAccountUpdated
  rw [if_neg h]
  rfl

theorem toAccountUpdated_nft_zero (e : TransferEvent) (s : Store) (h : ¬ notZeroEnds e) :
    (toAccountUpdated e s).nftCount = nftCountOf s e.paramsTo := by
  unfold toAccountUpdated
  rw [if_neg h]
  rfl

/- ------------------------------------------------------------------ -/
/- Theorems: handler projections.                                      -/
/- ------------------------------------------------------------------ -/

theorem handleTransfer_zero (e : TransferEvent) (s : Store) (h : ¬ notZeroEnds e) :
    handleTransfer e s =
      { accounts := assocUpsert (toAccountUpdated e s).id (toAccountUpdated e s)
          (assocUpsert (fromAccountUpdated e s).id (fromAccountUpdated e s) s.accounts),
        interactions := s.interactions, transfers := s.transfers,
        logs := (s.logs ++ diagEntries e) ++ [LogEntry.skipZeroAddressTracking e.txHash] } := by
  unfold handleTransfer
  rw [if_neg h]

theorem handleTransfer_trade (e : TransferEvent) (s : Store) (h : notZeroEnds e) :
    handleTransfer e s =
      { accounts := assocUpsert (tradeToResult e s).1.id (tradeToResult e s).1
          (assocUpsert (tradeFromResult e s).1.id (tradeFromResult e s).1
            (assocUpsert (toAccountUpdated e s).id (toAccountUpdated e s)
              (assocUpsert (fromAccountUpdated e s).id (fromAccountUpdated e s) s.accounts))),
        interactions := (tradeToResult e s).2,
        transfers := assocUpsert (transferRecord e s).id (transferRecord e s) s.transfers,
        logs := s.logs ++ diagEntries e } := by
  unfold handleTransfer tradeToResult tradeFromResult
  rw [if_pos h]

theorem getOrCreateAccount_upsert (a : String) (acc : Account) (l : List (String × Account)) :
    getOrCreateAccount a (assocUpsert acc.id acc l) =
      if acc.id = a then acc else getOrCreateAccount a l := by
  unfold getOrCreateAccount
  rw [assocFind_assocUpsert]
  by_cases h : acc.id = a <;> simp [h]

theorem tradeFromResult_fst_id (e : TransferEvent) (s : Store)
    (hwk : AccountsWellKeyed s.accounts) : (tradeFromResult e s).1.id = e.paramsFrom := by
  unfold tradeFromResult
  rw [trackInteraction_fst]
  exact fromAccountUpdated_id e s hwk

theorem tradeToResult_fst_id (e : TransferEvent) (s : Store)
    (hwk : AccountsWellKeyed s.accounts) : (tradeToResult e s).1.id = e.paramsTo := by
  unfold tradeToResult
  rw [trackInteraction_fst]
  exact toAccountUpdated_id e s hwk

theorem tradeFromResult_fst_uniq (e : TransferEvent) (s : Store)
    (hwk : AccountsWellKeyed s.accounts) :
    (tradeFromResult e s).1.uniqueMarketplacesCount =
      uniqCountOf s e.paramsFrom +
        (if assocFind (e.paramsFrom ++ "-" ++ marketplaceToString (covenClassify e.txTo e.txFrom))
              s.interactions = none
         then 1 else 0) := by
  unfold tradeFromResult
  rw [trackInteraction_fst]
  show (fromAccountUpdated e s).uniqueMarketplacesCount + _ = _
  rw [fromAccountUpdated_uniq, fromAccountUpdated_id e s hwk]

theorem tradeToResult_fst_uniq (e : TransferEvent) (s : Store)
    (hwk : AccountsWellKeyed s.accounts) :
    (tradeToResult e s).1.uniqueMarketplacesCount =
      uniqCountOf s e.paramsTo +
        (if assocFind (e.paramsTo ++ "-" ++ marketplaceToString (covenClassify e.txTo e.txFrom))
              (tradeFromResult e s).2 = none
         then 1 else 0) := by
  unfold tradeToResult
  rw [trackInteraction_fst]
  show (toAccountUpdated e s).uniqueMarketplacesCount + _ = _
  rw [toAccountUpdated_uniq, toAccountUpdated_id e s hwk]

theorem storedAccount_handleTransfer_zero (e : TransferEvent) (s : Store)
    (hwk : AccountsWellKeyed s.accounts) (h : ¬ notZeroEnds e) (a : String) :
    storedAccount (handleTransfer e s) a =
      if e.paramsTo = a then toAccountUpdated e s
      else if e.paramsFrom = a then fromAccountUpdated e s
      else storedAccount s a := by
  rw [handleTransfer_zero e s h]
  unfold storedAccount
  rw [getOrCreateAccount_upsert, getOrCreateAccount_upsert,
      toAccountUpdated_id e s hwk, fromAccountUpdated_id e s hwk]

theorem storedAccount_handleTransfer_trade (e : TransferEvent) (s : Store)
    (hwk : AccountsWellKeyed s.accounts) (h : notZeroEnds e) (a : String) :
    storedAccount (handleTransfer e s) a =
      if e.paramsTo = a then (tradeToResult e s).1
      else if e.paramsFrom = a then (tradeFromResult e s).1
      else storedAccount s a := by
  rw [handleTransfer_trade e s h]
  unfold storedAccount
  rw [getOrCreateAccount_upsert, getOrCreateAccount_upsert, getOrCreateAccount_upsert,
      getOrCreateAccount_upsert,
      tradeToResult_fst_id e s hwk, tradeFromResult_fst_id e s hwk,
      toAccountUpdated_id e s hwk, fromAccountUpdated_id e s hwk]
  by_cases h1 : e.paramsTo = a <;> by_cases h2 : e.paramsFrom = a <;> simp [h1, h2]

theorem countAccount_handleTransfer_trade (e : TransferEvent) (s : Store)
    (hwk : AccountsWellKeyed s.accounts) (h : notZeroEnds e) (a : String) :
    countAccount a (handleTransfer e s).interactions =
      countAccount a s.interactions
        + (if assocFind (e.paramsFrom ++ "-" ++ marketplaceToString (covenClassify e.txTo e.txFrom))
                s.interactions = none ∧ e.paramsFrom = a
           then 1 else 0)
        + (if assocFind (e.paramsTo ++ "-" ++ marketplaceToString (covenClassify e.txTo e.txFrom))
                (tradeFromResult e s).2 = none ∧ e.paramsTo = a
           then 1 else 0) := by
  have hint : (handleTransfer e s).interactions = (tradeToResult e s).2 := by
    rw [handleTransfer_trade e s h]
  rw [hint]
  unfold tradeToResult
  rw [trackInteraction_snd_count, toAccountUpdated_id e s hwk]
  unfold tradeFromResult
  rw [trackInteraction_snd_count, fromAccountUpdated_id e s hwk]

theorem accountsWellKeyed_handleTransfer (e : TransferEvent) (s : Store)
    (hwk : AccountsWellKeyed s.accounts) :
    AccountsWellKeyed (handleTransfer e s).accounts := by
  by_cases h : notZeroEnds e
  · rw [handleTransfer_trade e s h]
    exact accountsWellKeyed_upsert _
      (accountsWellKeyed_upsert _
        (accountsWellKeyed_upsert _ (accountsWellKeyed_upsert _ hwk _) _) _) _
  · rw [handleTransfer_zero e s h]
    exact accountsWellKeyed_upsert _ (accountsWellKeyed_upsert _ hwk _) _

theorem storeInv_handleTransfer (e : TransferEvent) (s : Store)
    (hinv : StoreInv s) (hns : noSelfTrade e) : StoreInv (handleTransfer e s) := by
  obtain ⟨hwk, hcnt⟩ := hinv
  refine ⟨accountsWellKeyed_handleTransfer e s hwk, ?_⟩
  intro a
  by_cases h : notZeroEnds e
  · have hne : e.paramsFrom ≠ e.paramsTo := by
      rcases hns with hne | hz
      · exact hne
      · exact absurd hz h.1
    show (storedAccount (handleTransfer e s) a).uniqueMarketplacesCount = _
    rw [storedAccount_handleTransfer_trade e s hwk h a,
        countAccount_handleTransfer_trade e s hwk h a]
    by_cases h1 : e.paramsTo = a
    · subst h1
      have h2 : ¬ e.paramsFrom = e.paramsTo := hne
      rw [if_pos rfl, tradeToResult_fst_uniq e s hwk]
      have hto := hcnt e.paramsTo
      by_cases hcT : assocFind
          (e.paramsTo ++ "-" ++ marketplaceToString (covenClassify e.txTo e.txFrom))
          (tradeFromResult e s).2 = none <;>
        simp only [hcT, h2, and_true, true_and, and_false, false_and, if_true, if_false,
          eq_self_iff_true, not_false_iff, ite_true, ite_false, ite_self] <;>
        push_cast <;> omega
    · by_cases h2 : e.paramsFrom = a
      · subst h2
        rw [if_neg h1, if_pos rfl, tradeFromResult_fst_uniq e s hwk]
        have hfrom := hcnt e.paramsFrom
        have h1b : ¬ e.paramsTo = e.paramsFrom := h1
        by_cases hcF : assocFind
            (e.paramsFrom ++ "-" ++ marketplaceToString (covenClassify e.txTo e.txFrom))
            s.interactions = none <;>
          simp only [hcF, h1b, and_true, true_and, and_false, false_and, if_true, if_false,
            eq_self_iff_true, not_false_iff, ite_true, ite_false, ite_self] <;>
          push_cast <;> omega
      · rw [if_neg h1, if_neg h2]
        have ha : (storedAccount s a).uniqueMarketplacesCount =
            (countAccount a s.interactions : Int) := hcnt a
        simp only [h1, h2, and_false, if_false, ite_false]
        push_cast
        omega
  · have hint : (handleTransfer e s).interactions = s.interactions := by
      rw [handleTransfer_zero e s h]
    show (storedAccount (handleTransfer e s) a).uniqueMarketplacesCount = _
    rw [hint, storedAccount_handleTransfer_zero e s hwk h a]
    by_cases h1 : e.paramsTo = a
    · rw [if_pos h1, toAccountUpdated_uniq, h1]
      exact hcnt a
    · rw [if_neg h1]
      by_cases h2 : e.paramsFrom = a
      · rw [if_pos h2, fromAccountUpdated_uniq, h2]
        exact hcnt a
      · rw [if_neg h2]
        exact hcnt a

theorem storeInv_emptyStore : StoreInv emptyStore := by
  refine ⟨accountsWellKeyed_nil, ?_⟩
  intro a
  rfl

theorem storeInv_foldl (events : List TransferEvent) (s : Store)
    (hs : StoreInv s) (h : ∀ e ∈ events, noSelfTrade e) :
    StoreInv (events.foldl (fun s2 e => handleTransfer e s2) s) := by
  induction events generalizing s with
  | nil => exact hs
  | cons e rest ih =>
      simp only [List.foldl_cons]
      exact ih (handleTransfer e s)
        (storeInv_handleTransfer e s hs (h e (List.mem_cons_self e rest)))
        (fun e2 he2 => h e2 (List.mem_cons_of_mem e he2))

theorem storeInv_processEvents (events : List TransferEvent)
    (h : ∀ e ∈ events, noSelfTrade e) : StoreInv (processEvents events) :=
  storeInv_foldl events emptyStore storeInv_emptyStore h

/- ------------------------------------------------------------------ -/
/- Claim theorems.                                                     -/
/- ------------------------------------------------------------------ -/

/-- C1, counterexample: the claim fails as stated.  A single self-transfer with
a non-zero address (evSelfAA) creates one MarketplaceInteraction record for the
account, but the stored uniqueMarketplacesCount stays 0: the increment was
applied to the fromAccount copy, whose save is overwritten by the stale
toAccount copy saved last. -/
theorem c1_counterexample :
    ¬ (uniqCountOf (processEvents [evSelfAA]) "0xaaa" =
        (countAccount "0xaaa" (processEvents [evSelfAA]).interactions : Int)) := by
  decide

/-- C1 (amended): for every sequence of transfer events none of which is a
non-zero self-transfer (paramsFrom = paramsTo only when both are the zero
address), every account's uniqueMarketplacesCount equals the number of
MarketplaceInteraction records whose account reference is that account. -/
theorem c1_uniqueMarketplacesCount_invariant (events : List TransferEvent)
    (h : ∀ e ∈ events, noSelfTrade e) (a : String) :
    uniqCountOf (processEvents events) a =
      (countAccount a (processEvents events).interactions : Int) :=
  (storeInv_processEvents events h).2 a

/-- Witness for C1 at the concrete one-event history [evTradeAB]. -/
theorem c1_uniqueMarketplacesCount_invariant_witness :
    uniqCountOf (processEvents [evTradeAB]) "0xaaa" =
      (countAccount "0xaaa" (processEvents [evTradeAB]).interactions : Int) :=
  c1_uniqueMarketplacesCount_invariant [evTradeAB] (by decide) "0xaaa"

/-- C2: the source classifier chain computes exactly the spec's algorithm:
first match over the ordered (tag, knownAddress) priority list, Unknown when a
candidate is absent or nothing matches. -/
theorem c2_classifier_matches_priority_list (sender receiver : Option Addr) :
    covenClassify sender receiver = classifySpecModel sender receiver := by
  cases sender with
  | none => cases receiver <;> rfl
  | some s2 =>
      cases receiver with
      | none => rfl
      | some r2 => rfl

/-- C9: the classifier is total: every input pair, (null, null) included, yields
exactly one tag of the closed thirteen-tag set (the Lean function is total, so
no execution path throws). -/
theorem c9_classifier_total :
    (∀ sender receiver : Option Addr, covenClassify sender receiver ∈ allMarketplaceTags) ∧
    covenClassify none none = Marketplace.Unknown := by
  constructor
  · have hall : ∀ m : Marketplace, m ∈ allMarketplaceTags := by
      intro m
      cases m <;> decide
    intro sender receiver
    exact hall (covenClassify sender receiver)
  · rfl

/-- C3, counterexample: the claim fails as stated.  For the degenerate event
whose NFT-transfer endpoints are both the zero address (evZeroZero), the
receive side is applied but the sendCount update is lost: the toAccount copy of
the same zero-address account is saved after the fromAccount copy. -/
theorem c3_counterexample :
    receiveCountOf (processEvents [evZeroZero]) ZERO_ADDRESS = 1 ∧
    ¬ (sendCountOf (processEvents [evZeroZero]) ZERO_ADDRESS =
        sendCountOf emptyStore ZERO_ADDRESS + 1) := by
  decide

/-- C3 (amended): for a mint or burn event whose two endpoints differ,
handleTransfer bumps the sender's sendCount, the recipient's receiveCount and
totalSpent, touches no MarketplaceInteraction record, and leaves every
account's uniqueMarketplacesCount and nftCount unchanged; when the endpoints
coincide (both the zero address) the sendCount update is overwritten by the
later toAccount save. -/
theorem c3_mint_burn_updates_counters_only (e : TransferEvent) (s : Store)
    (hwk : AccountsWellKeyed s.accounts)
    (hzero : e.paramsFrom = ZERO_ADDRESS ∨ e.paramsTo = ZERO_ADDRESS)
    (hne : e.paramsFrom ≠ e.paramsTo) :
    sendCountOf (handleTransfer e s) e.paramsFrom = sendCountOf s e.paramsFrom + 1 ∧
    receiveCountOf (handleTransfer e s) e.paramsTo = receiveCountOf s e.paramsTo + 1 ∧
    totalSpentOf (handleTransfer e s) e.paramsTo = totalSpentOf s e.paramsTo + e.txValue ∧
    (handleTransfer e s).interactions = s.interactions ∧
    (∀ a, uniqCountOf (handleTransfer e s) a = uniqCountOf s a) ∧
    (∀ a, nftCountOf (handleTransfer e s) a = nftCountOf s a) := by
  have h : ¬ notZeroEnds e := by
    rcases hzero with h2 | h2
    · exact fun hc => hc.1 h2
    · exact fun hc => hc.2 h2
  refine ⟨?_, ?_, ?_, ?_, ?_, ?_⟩
  · show (storedAccount (handleTransfer e s) e.paramsFrom).sendCount = _
    rw [storedAccount_handleTransfer_zero e s hwk h,
        if_neg (fun h2 => hne h2.symm), if_pos rfl]
    exact fromAccountUpdated_sendCount e s
  · show (storedAccount (handleTransfer e s) e.paramsTo).receiveCount = _
    rw [storedAccount_handleTransfer_zero e s hwk h, if_pos rfl]
    exact toAccountUpdated_receiveCount e s
  · show (storedAccount (handleTransfer e s) e.paramsTo).totalSpent = _
    rw [storedAccount_handleTransfer_zero e s hwk h, if_pos rfl]
    exact toAccountUpdated_totalSpent e s
  · rw [handleTransfer_zero e s h]
  · intro a
    show (storedAccount (handleTransfer e s) a).uniqueMarketplacesCount = _
    rw [storedAccount_handleTransfer_zero e s hwk h a]
    by_cases h1 : e.paramsTo = a
    · rw [if_pos h1, toAccountUpdated_uniq, h1]
    · rw [if_neg h1]
      by_cases h2 : e.paramsFrom = a
      · rw [if_pos h2, fromAccountUpdated_uniq, h2]
      · rw [if_neg h2]
        rfl
  · intro a
    show (storedAccount (handleTransfer e s) a).nftCount = _
    rw [storedAccount_handleTransfer_zero e s hwk h a]
    by_cases h1 : e.paramsTo = a
    · rw [if_pos h1, toAccountUpdated_nft_zero e s h, h1]
    · rw [if_neg h1]
      by_cases h2 : e.paramsFrom = a
      · rw [if_pos h2, fromAccountUpdated_nft_zero e s h, h2]
      · rw [if_neg h2]
        rfl

/-- Witness for C3 at the concrete mint event evMint on the empty store. -/
theorem c3_mint_burn_updates_counters_only_witness :
    sendCountOf (handleTransfer evMint emptyStore) evMint.paramsFrom =
        sendCountOf emptyStore evMint.paramsFrom + 1 ∧
    receiveCountOf (handleTransfer evMint emptyStore) evMint.paramsTo =
        receiveCountOf emptyStore evMint.paramsTo + 1 ∧
    totalSpentOf (handleTransfer evMint emptyStore) evMint.paramsTo =
        totalSpentOf emptyStore evMint.paramsTo + evMint.txValue ∧
    (handleTransfer evMint emptyStore).interactions = emptyStore.interactions ∧
    (∀ a, uniqCountOf (handleTransfer evMint emptyStore) a = uniqCountOf emptyStore a) ∧
    (∀ a, nftCountOf (handleTransfer evMint emptyStore) a = nftCountOf emptyStore a) :=
  c3_mint_burn_updates_counters_only evMint emptyStore accountsWellKeyed_nil
    (Or.inl rfl) (by decide)

/-- C4, counterexample: the claim fails as stated.  On the non-zero
self-transfer evSelfAA the nftCount decrement applied to the fromAccount copy
is lost (the toAccount copy, incremented from the stale loaded value, is saved
last): the stored nftCount is old + 1 = 1, not old - 1. -/
theorem c4_counterexample :
    nftCountOf (processEvents [evSelfAA]) "0xaaa" = 1 ∧
    ¬ (nftCountOf (processEvents [evSelfAA]) "0xaaa" =
        nftCountOf emptyStore "0xaaa" - 1) := by
  decide

/-- C4 (amended): for a non-mint/non-burn event whose endpoints differ,
handleTransfer stores from.nftCount = old - 1 (an account that never held a
token goes to -1; no floor clamp is applied) and to.nftCount = old + 1; for a
self-transfer the decrement is overwritten and the stored value is old + 1. -/
theorem c4_nft_decrement_increment (e : TransferEvent) (s : Store)
    (hwk : AccountsWellKeyed s.accounts) (h : notZeroEnds e)
    (hne : e.paramsFrom ≠ e.paramsTo) :
    nftCountOf (handleTransfer e s) e.paramsFrom = nftCountOf s e.paramsFrom - 1 ∧
    nftCountOf (handleTransfer e s) e.paramsTo = nftCountOf s e.paramsTo + 1 := by
  constructor
  · show (storedAccount (handleTransfer e s) e.paramsFrom).nftCount = _
    rw [storedAccount_handleTransfer_trade e s hwk h,
        if_neg (fun h2 => hne h2.symm), if_pos rfl]
    have h3 : (tradeFromResult e s).1.nftCount = (fromAccountUpdated e s).nftCount := by
      unfold tradeFromResult
      rw [trackInteraction_fst]
    rw [h3]
    exact fromAccountUpdated_nft_trade e s h
  · show (storedAccount (handleTransfer e s) e.paramsTo).nftCount = _
    rw [storedAccount_handleTransfer_trade e s hwk h, if_pos rfl]
    have h3 : (tradeToResult e s).1.nftCount = (toAccountUpdated e s).nftCount := by
      unfold tradeToResult
      rw [trackInteraction_fst]
    rw [h3]
    exact toAccountUpdated_nft_trade e s h

/-- Witness for C4 at the concrete trade evTradeAB on the empty store: the
fresh sender is stored at nftCount -1 (no clamping), the recipient at 1. -/
theorem c4_nft_decrement_increment_witness :
    nftCountOf (handleTransfer evTradeAB emptyStore) evTradeAB.paramsFrom = -1 ∧
    nftCountOf (handleTransfer evTradeAB emptyStore) evTradeAB.paramsTo = 1 :=
  ⟨((c4_nft_decrement_increment evTradeAB emptyStore accountsWellKeyed_nil
      (by decide) (by decide)).1).trans (by decide),
   ((c4_nft_decrement_increment evTradeAB emptyStore accountsWellKeyed_nil
      (by decide) (by decide)).2).trans (by decide)⟩

/-- C6: for every event with a zero-address endpoint, the Transfer entity is
never saved (the transfers store is unchanged), both account ids are present in
the accounts store, and the skip diagnostic is logged. -/
theorem c6_zero_address_transfer_not_saved (e : TransferEvent) (s : Store)
    (hwk : AccountsWellKeyed s.accounts)
    (hzero : e.paramsFrom = ZERO_ADDRESS ∨ e.paramsTo = ZERO_ADDRESS) :
    (handleTransfer e s).transfers = s.transfers ∧
    (assocFind e.paramsFrom (handleTransfer e s).accounts).isSome = true ∧
    (assocFind e.paramsTo (handleTransfer e s).accounts).isSome = true ∧
    LogEntry.skipZeroAddressTracking e.txHash ∈ (handleTransfer e s).logs := by
  have h : ¬ notZeroEnds e := by
    rcases hzero with h2 | h2
    · exact fun hc => hc.1 h2
    · exact fun hc => hc.2 h2
  rw [handleTransfer_zero e s h]
  refine ⟨rfl, ?_, ?_, ?_⟩
  · show (assocFind e.paramsFrom (assocUpsert (toAccountUpdated e s).id (toAccountUpdated e s)
      (assocUpsert (fromAccountUpdated e s).id (fromAccountUpdated e s) s.accounts))).isSome = true
    rw [assocFind_assocUpsert, assocFind_assocUpsert,
        toAccountUpdated_id e s hwk, fromAccountUpdated_id e s hwk]
    by_cases h1 : e.paramsTo = e.paramsFrom <;> simp [h1]
  · show (assocFind e.paramsTo (assocUpsert (toAccountUpdated e s).id (toAccountUpdated e s)
      (assocUpsert (fromAccountUpdated e s).id (fromAccountUpdated e s) s.accounts))).isSome = true
    rw [assocFind_assocUpsert, toAccountUpdated_id e s hwk]
    simp
  · show LogEntry.skipZeroAddressTracking e.txHash ∈
      (s.logs ++ diagEntries e) ++ [LogEntry.skipZeroAddressTracking e.txHash]
    simp

/-- Witness for C6 at the concrete mint event evMint on the empty store. -/
theorem c6_zero_address_transfer_not_saved_witness :
    (handleTransfer evMint emptyStore).transfers = emptyStore.transfers ∧
    (assocFind evMint.paramsFrom (handleTransfer evMint emptyStore).accounts).isSome = true ∧
    (assocFind evMint.paramsTo (handleTransfer evMint emptyStore).accounts).isSome = true ∧
    LogEntry.skipZeroAddressTracking evMint.txHash ∈ (handleTransfer evMint emptyStore).logs :=
  c6_zero_address_transfer_not_saved evMint emptyStore accountsWellKeyed_nil (Or.inl rfl)

/-- C5, counterexample: the claim fails as stated.  The self-transfer evSelfAA
is a non-mint/non-burn event whose interaction key 0xaaa-OpenSeaV1 is absent
beforehand, yet after the handler the record created by the event holds
transactionCount 2, not 1: the from-account block creates it and the
to-account block, hitting the same key, immediately increments it. -/
theorem c5_counterexample :
    assocFind "0xaaa-OpenSeaV1" emptyStore.interactions = none ∧
    (assocFind "0xaaa-OpenSeaV1" (handleTransfer evSelfAA emptyStore).interactions).map
        MarketplaceInteraction.transactionCount = some 2 ∧
    ¬ ((assocFind "0xaaa-OpenSeaV1" (handleTransfer evSelfAA emptyStore).interactions).map
        MarketplaceInteraction.transactionCount = some 1) := by
  decide

/-- C5 (amended): for a non-mint/non-burn event with distinct endpoints
classified with tag T, the MarketplaceInteraction record of each endpoint
account is identified by the composite key accountId ++ "-" ++ toString(T); on
a miss the handler creates it with the account reference, the display string of
T, and transactionCount 1; on a hit it increments transactionCount by 1.  For a
self-transfer the two blocks act on the same key in sequence, so a record
created by the event ends it at transactionCount 2. -/
theorem c5_interaction_record_keying (e : TransferEvent) (s : Store)
    (hwk : AccountsWellKeyed s.accounts) (h : notZeroEnds e)
    (hne : e.paramsFrom ≠ e.paramsTo) (a : String)
    (ha : a = e.paramsFrom ∨ a = e.paramsTo) :
    (assocFind (a ++ "-" ++ marketplaceToString (covenClassify e.txTo e.txFrom))
        s.interactions = none →
      assocFind (a ++ "-" ++ marketplaceToString (covenClassify e.txTo e.txFrom))
          (handleTransfer e s).interactions =
        some { id := a ++ "-" ++ marketplaceToString (covenClassify e.txTo e.txFrom),
               account := a,
               marketplace := getMarketplaceName (covenClassify e.txTo e.txFrom),
               transactionCount := 1 }) ∧
    (∀ rec, assocFind (a ++ "-" ++ marketplaceToString (covenClassify e.txTo e.txFrom))
          s.interactions = some rec →
      assocFind (a ++ "-" ++ marketplaceToString (covenClassify e.txTo e.txFrom))
          (handleTransfer e s).interactions =
        some { rec with transactionCount := rec.transactionCount + 1 }) := by
  have hidF : (fromAccountUpdated e s).id = e.paramsFrom := fromAccountUpdated_id e s hwk
  have hidT : (toAccountUpdated e s).id = e.paramsTo := toAccountUpdated_id e s hwk
  have hint : (handleTransfer e s).interactions = (tradeToResult e s).2 := by
    rw [handleTransfer_trade e s h]
  rcases ha with ha | ha
  · subst ha
    have hk : e.paramsFrom ++ "-" ++ marketplaceToString (covenClassify e.txTo e.txFrom) ≠
        (toAccountUpdated e s).id ++ "-" ++ marketplaceToString (covenClassify e.txTo e.txFrom) := by
      rw [hidT]
      exact interactionKey_ne _ _ _ hne
    constructor
    · intro habs
      rw [hint]
      unfold tradeToResult
      rw [trackInteraction_snd_find_ne _ _ _ _ hk]
      unfold tradeFromResult
      have h2 := trackInteraction_snd_find_self_absent (fromAccountUpdated e s)
        (covenClassify e.txTo e.txFrom) s.interactions (by rw [hidF]; exact habs)
      rw [hidF] at h2
      exact h2
    · intro rec hpres
      rw [hint]
      unfold tradeToResult
      rw [trackInteraction_snd_find_ne _ _ _ _ hk]
      unfold tradeFromResult
      have h2 := trackInteraction_snd_find_self_present (fromAccountUpdated e s)
        (covenClassify e.txTo e.txFrom) s.interactions rec (by rw [hidF]; exact hpres)
      rw [hidF] at h2
      exact h2
  · subst ha
    have hkFT : assocFind (e.paramsTo ++ "-" ++ marketplaceToString (covenClassify e.txTo e.txFrom))
        (tradeFromResult e s).2 =
        assocFind (e.paramsTo ++ "-" ++ marketplaceToString (covenClassify e.txTo e.txFrom))
          s.interactions := by
      unfold tradeFromResult
      apply trackInteraction_snd_find_ne
      rw [hidF]
      exact interactionKey_ne _ _ _ (fun h3 => hne h3.symm)
    constructor
    · intro habs
      rw [hint]
      unfold tradeToResult
      have h2 := trackInteraction_snd_find_self_absent (toAccountUpdated e s)
        (covenClassify e.txTo e.txFrom) (tradeFromResult e s).2
        (by rw [hidT, hkFT]; exact habs)
      rw [hidT] at h2
      exact h2
    · intro rec hpres
      rw [hint]
      unfold tradeToResult
      have h2 := trackInteraction_snd_find_self_present (toAccountUpdated e s)
        (covenClassify e.txTo e.txFrom) (tradeFromResult e s).2 rec
        (by rw [hidT, hkFT]; exact hpres)
      rw [hidT] at h2
      exact h2

/-- Witness for C5: after evTradeAB on the empty store, the sender's OpenSeaV1
interaction sits under the key 0xaaa-OpenSeaV1 with transactionCount 1. -/
theorem c5_interaction_record_keying_witness :
    assocFind ("0xaaa" ++ "-" ++ marketplaceToString (covenClassify evTradeAB.txTo evTradeAB.txFrom))
        (handleTransfer evTradeAB emptyStore).interactions =
      some { id := "0xaaa" ++ "-" ++ marketplaceToString (covenClassify evTradeAB.txTo evTradeAB.txFrom),
             account := "0xaaa",
             marketplace := getMarketplaceName (covenClassify evTradeAB.txTo evTradeAB.txFrom),
             transactionCount := 1 } :=
  (c5_interaction_record_keying evTradeAB emptyStore accountsWellKeyed_nil
    (by decide) (by decide) "0xaaa" (Or.inl rfl)).1 (by decide)

/-- C7, counterexample: the claim fails as stated.  After evTradeAB the account
0xaaa holds the record 0xaaa-OpenSeaV1 with transactionCount 1; the second
event evSelfAA (an event for that account with the same tag) drives the count
to 3, not 2, because the self-transfer runs both interaction blocks against the
same record. -/
theorem c7_counterexample :
    (assocFind "0xaaa-OpenSeaV1" (processEvents [evTradeAB]).interactions).map
        MarketplaceInteraction.transactionCount = some 1 ∧
    (assocFind "0xaaa-OpenSeaV1" (processEvents [evTradeAB, evSelfAA]).interactions).map
        MarketplaceInteraction.transactionCount = some 3 := by
  decide

/-- C7 (amended): for an account holding a MarketplaceInteraction record with
transactionCount 1 for tag T, a second non-mint/non-burn event for that account
with the same tag and distinct endpoints drives that record's transactionCount
to 2 and leaves the account's uniqueMarketplacesCount unchanged; a self-transfer
event instead drives the count to 3. -/
theorem c7_second_event_increments (e : TransferEvent) (s : Store)
    (hwk : AccountsWellKeyed s.accounts) (h : notZeroEnds e)
    (hne : e.paramsFrom ≠ e.paramsTo) (a : String)
    (ha : a = e.paramsFrom ∨ a = e.paramsTo) (rec : MarketplaceInteraction)
    (hrec : assocFind (a ++ "-" ++ marketplaceToString (covenClassify e.txTo e.txFrom))
        s.interactions = some rec)
    (hcount : rec.transactionCount = 1) :
    (assocFind (a ++ "-" ++ marketplaceToString (covenClassify e.txTo e.txFrom))
        (handleTransfer e s).interactions).map MarketplaceInteraction.transactionCount =
      some 2 ∧
    uniqCountOf (handleTransfer e s) a = uniqCountOf s a := by
  have hidF : (fromAccountUpdated e s).id = e.paramsFrom := fromAccountUpdated_id e s hwk
  have hidT : (toAccountUpdated e s).id = e.paramsTo := toAccountUpdated_id e s hwk
  have hint : (handleTransfer e s).interactions = (tradeToResult e s).2 := by
    rw [handleTransfer_trade e s h]
  rcases ha with ha | ha
  · subst ha
    have hk : e.paramsFrom ++ "-" ++ marketplaceToString (covenClassify e.txTo e.txFrom) ≠
        (toAccountUpdated e s).id ++ "-" ++ marketplaceToString (covenClassify e.txTo e.txFrom) := by
      rw [hidT]
      exact interactionKey_ne _ _ _ hne
    constructor
    · rw [hint]
      unfold tradeToResult
      rw [trackInteraction_snd_find_ne _ _ _ _ hk]
      unfold tradeFromResult
      have h2 := trackInteraction_snd_find_self_present (fromAccountUpdated e s)
        (covenClassify e.txTo e.txFrom) s.interactions rec (by rw [hidF]; exact hrec)
      rw [hidF] at h2
      rw [h2]
      show some (rec.transactionCount + 1) = some 2
      rw [hcount]
      decide
    · show (storedAccount (handleTransfer e s) e.paramsFrom).uniqueMarketplacesCount = _
      rw [storedAccount_handleTransfer_trade e s hwk h,
          if_neg (fun h2 => hne h2.symm), if_pos rfl,
          tradeFromResult_fst_uniq e s hwk, if_neg (by rw [hrec]; exact fun h3 => by injection h3),
          add_zero]
  · subst ha
    have hkFT : assocFind (e.paramsTo ++ "-" ++ marketplaceToString (covenClassify e.txTo e.txFrom))
        (tradeFromResult e s).2 =
        assocFind (e.paramsTo ++ "-" ++ marketplaceToString (covenClassify e.txTo e.txFrom))
          s.interactions := by
      unfold tradeFromResult
      apply trackInteraction_snd_find_ne
      rw [hidF]
      exact interactionKey_ne _ _ _ (fun h3 => hne h3.symm)
    constructor
    · rw [hint]
      unfold tradeToResult
      have h2 := trackInteraction_snd_find_self_present (toAccountUpdated e s)
        (covenClassify e.txTo e.txFrom) (tradeFromResult e s).2 rec
        (by rw [hidT, hkFT]; exact hrec)
      rw [hidT] at h2
      rw [h2]
      show some (rec.transactionCount + 1) = some 2
      rw [hcount]
      decide
    · show (storedAccount (handleTransfer e s) e.paramsTo).uniqueMarketplacesCount = _
      rw [storedAccount_handleTransfer_trade e s hwk h, if_pos rfl,
          tradeToResult_fst_uniq e s hwk,
          if_neg (by rw [hkFT, hrec]; exact fun h3 => by injection h3),
          add_zero]

/-- Witness for C7: the second trade evTradeAB2 after evTradeAB drives the
record 0xaaa-OpenSeaV1 from transactionCount 1 to 2 and leaves the sender's
uniqueMarketplacesCount unchanged. -/
theorem c7_second_event_increments_witness :
    (assocFind ("0xaaa" ++ "-" ++ marketplaceToString (covenClassify evTradeAB2.txTo evTradeAB2.txFrom))
        (handleTransfer evTradeAB2 (processEvents [evTradeAB])).interactions).map
      MarketplaceInteraction.transactionCount = some 2 ∧
    uniqCountOf (handleTransfer evTradeAB2 (processEvents [evTradeAB])) "0xaaa" =
      uniqCountOf (processEvents [evTradeAB]) "0xaaa" :=
  c7_second_event_increments evTradeAB2 (processEvents [evTradeAB])
    (storeInv_processEvents [evTradeAB] (by decide)).1 (by decide) (by decide)
    "0xaaa" (Or.inl rfl)
    { id := "0xaaa-OpenSeaV1", account := "0xaaa", marketplace := "OpenSeaV1",
      transactionCount := 1 }
    (by decide) rfl

/-- C10: for a self-transfer of a non-zero address, the stored account after
the handler is exactly the toAccount copy's view: txHash stamped, receiveCount,
totalSpent and nftCount advanced from the stale loaded values, while the
sendCount increment and the nftCount decrement of the fromAccount copy (saved
first) are overwritten and lost. -/
theorem c10_self_transfer_lost_updates (e : TransferEvent) (s : Store)
    (hwk : AccountsWellKeyed s.accounts)
    (hself : e.paramsFrom = e.paramsTo) (hnz : e.paramsFrom ≠ ZERO_ADDRESS) :
    assocFind e.paramsFrom (handleTransfer e s).accounts =
      some { getOrCreateAccount e.paramsFrom s.accounts with
             txHash := e.txHash,
             receiveCount := (getOrCreateAccount e.paramsFrom s.accounts).receiveCount + 1,
             totalSpent := (getOrCreateAccount e.paramsFrom s.accounts).totalSpent + e.txValue,
             nftCount := (getOrCreateAccount e.paramsFrom s.accounts).nftCount + 1 } := by
  have h : notZeroEnds e := ⟨hnz, fun hz => hnz (hself.trans hz)⟩
  have hidF : (fromAccountUpdated e s).id = e.paramsFrom := fromAccountUpdated_id e s hwk
  have hidT : (toAccountUpdated e s).id = e.paramsTo := toAccountUpdated_id e s hwk
  rw [hself]
  have hacc : (handleTransfer e s).accounts =
      assocUpsert (tradeToResult e s).1.id (tradeToResult e s).1
        (assocUpsert (tradeFromResult e s).1.id (tradeFromResult e s).1
          (assocUpsert (toAccountUpdated e s).id (toAccountUpdated e s)
            (assocUpsert (fromAccountUpdated e s).id (fromAccountUpdated e s) s.accounts))) := by
    rw [handleTransfer_trade e s h]
  rw [hacc, assocFind_assocUpsert, tradeToResult_fst_id e s hwk, if_pos rfl]
  have hsome : ¬ assocFind
      (e.paramsTo ++ "-" ++ marketplaceToString (covenClassify e.txTo e.txFrom))
      (tradeFromResult e s).2 = none := by
    have hkey : e.paramsTo ++ "-" ++ marketplaceToString (covenClassify e.txTo e.txFrom) =
        (fromAccountUpdated e s).id ++ "-" ++ marketplaceToString (covenClassify e.txTo e.txFrom) := by
      rw [hidF, hself]
    rw [hkey]
    unfold tradeFromResult
    cases hfind : assocFind
        ((fromAccountUpdated e s).id ++ "-" ++ marketplaceToString (covenClassify e.txTo e.txFrom))
        s.interactions with
    | none =>
        rw [trackInteraction_snd_find_self_absent _ _ _ hfind]
        exact fun h3 => by injection h3
    | some rec =>
        rw [trackInteraction_snd_find_self_present _ _ _ rec hfind]
        exact fun h3 => by injection h3
  have hline : (tradeToResult e s).1 = toAccountUpdated e s := by
    unfold tradeToResult
    rw [trackInteraction_fst]
    rw [if_neg (show ¬ assocFind
        ((toAccountUpdated e s).id ++ "-" ++ marketplaceToString (covenClassify e.txTo e.txFrom))
        (tradeFromResult e s).2 = none by rw [hidT]; exact hsome), add_zero]
  rw [hline]
  congr 1
  unfold toAccountUpdated
  rw [if_pos h]
  rfl

/-- Witness for C10 at the concrete self-transfer evSelfAA on the empty store. -/
theorem c10_self_transfer_lost_updates_witness :
    assocFind evSelfAA.paramsFrom (handleTransfer evSelfAA emptyStore).accounts =
      some { getOrCreateAccount evSelfAA.paramsFrom emptyStore.accounts with
             txHash := evSelfAA.txHash,
             receiveCount := (getOrCreateAccount evSelfAA.paramsFrom emptyStore.accounts).receiveCount + 1,
             totalSpent := (getOrCreateAccount evSelfAA.paramsFrom emptyStore.accounts).totalSpent + evSelfAA.txValue,
             nftCount := (getOrCreateAccount evSelfAA.paramsFrom emptyStore.accounts).nftCount + 1 } :=
  c10_self_transfer_lost_updates evSelfAA emptyStore accountsWellKeyed_nil rfl (by decide)

/-- C8, counterexample: the claim fails as stated.  For the event evNoTxTo with
an absent transaction to address, the handler emits only the Unknown
marketplace log: the absent address forces the Unknown tag, whose branch of the
if/else-if chain shadows the unusual activity log, so no unusual activity
diagnostic is ever emitted.  And for evBurnTx, whose transaction to address
holds the zero address while the tag is OpenSeaV1, no burn log is emitted
either: line 153 compares sender === ZERO_ADDRESS by object identity, which
never holds for the deserialized transaction address. -/
theorem c8_counterexample :
    (LogEntry.unusualActivity "0xhash6" ∉ (handleTransfer evNoTxTo emptyStore).logs ∧
     (handleTransfer evNoTxTo emptyStore).logs = [LogEntry.unknownMarketplace "0xhash6"]) ∧
    LogEntry.burnDetected "0xhash7" ∉ (handleTransfer evBurnTx emptyStore).logs := by
  decide

/-- C8 (amended): the diagnostic chain of lines 150-157 runs on every event and
emits at most one entry: the Unknown-marketplace log exactly when the
classified tag is Unknown, and nothing otherwise.  Its two other branches are
dead code: the burn branch tests sender === ZERO_ADDRESS by object identity,
which never holds between the freshly deserialized transaction address and the
constants-module object, and the unusual-activity branch is shadowed because an
absent address forces the Unknown tag.  The chain's entries are merely appended
to the log stream, before the zero-address skip entry when that path is
taken. -/
theorem c8_diagnostic_chain (e : TransferEvent) (s : Store) :
    ((handleTransfer e s).logs =
      (s.logs ++ diagEntries e) ++
        (if notZeroEnds e then [] else [LogEntry.skipZeroAddressTracking e.txHash])) ∧
    (diagEntries e).length ≤ 1 ∧
    (covenClassify e.txTo e.txFrom = Marketplace.Unknown →
      diagEntries e = [LogEntry.unknownMarketplace e.txHash]) ∧
    (covenClassify e.txTo e.txFrom ≠ Marketplace.Unknown → diagEntries e = []) ∧
    (∀ h2, LogEntry.burnDetected h2 ∉ diagEntries e) ∧
    (∀ h2, LogEntry.unusualActivity h2 ∉ diagEntries e) := by
  refine ⟨?_, ?_, ?_, ?_, ?_, ?_⟩
  · by_cases h : notZeroEnds e
    · rw [handleTransfer_trade e s h, if_pos h]
      show s.logs ++ diagEntries e = (s.logs ++ diagEntries e) ++ []
      rw [List.append_nil]
    · rw [handleTransfer_zero e s h, if_neg h]
  · simp only [diagEntries]
    split_ifs <;> simp
  · intro hu
    simp only [diagEntries]
    rw [if_pos hu]
  · intro hu
    simp only [diagEntries]
    rw [if_neg hu]
    have hid : ¬ identityEqZeroAddress e.txTo = true := by
      simp [identityEqZeroAddress]
    rw [if_neg hid]
    have habs : ¬ (e.txTo = none ∨ e.txFrom = none) := fun hC =>
      hu (covenClassify_absent e.txTo e.txFrom hC)
    rw [if_neg habs]
  · intro h2 hmem
    simp only [diagEntries] at hmem
    split_ifs at hmem with hA hB hC
    · simp at hmem
    · simp [identityEqZeroAddress] at hB
    · simp at hmem
    · simp at hmem
  · intro h2 hmem
    simp only [diagEntries] at hmem
    split_ifs at hmem with hA hB hC
    · simp at hmem
    · simp [identityEqZeroAddress] at hB
    · exact hA (covenClassify_absent e.txTo e.txFrom hC)
    · simp at hmem

/-- Witness for C8: the implication hypotheses of the chain theorem discharged
at the concrete events evNoTxTo (Unknown tag, one entry) and evBurnTx (known
tag, no entry). -/
theorem c8_diagnostic_chain_witness :
    diagEntries evNoTxTo = [LogEntry.unknownMarketplace evNoTxTo.txHash] ∧
    diagEntries evBurnTx = [] :=
  ⟨(c8_diagnostic_chain evNoTxTo emptyStore).2.2.1 (by decide),
   (c8_diagnostic_chain evBurnTx emptyStore).2.2.2.1 (by decide)⟩

end CovenIndexing
